import Mathlib

/-!
Verification of the crawl-orchestrator core of the `app` package
(`app/api.py`, `app/auth.py`).

Python strings are modelled as `String` (Lean 4.14 strings are lists of
characters), and the string primitives used by the source
(`split`, `rstrip`, `replace`, `startswith`, `endswith`, `lower`,
slicing) are given explicit executable translations over `List Char`.
Lower-casing models CPython `str.lower` on the ASCII range, which is the
range exercised by every URL and key in the source.
-/

/-- CPython `str.lower` on one ASCII character: the twenty-six uppercase
letters map to their lowercase forms, every other character is unchanged. -/
def lowerChar (c : Char) : Char :=
  match c with
  | 'A' => 'a' | 'B' => 'b' | 'C' => 'c' | 'D' => 'd' | 'E' => 'e'
  | 'F' => 'f' | 'G' => 'g' | 'H' => 'h' | 'I' => 'i' | 'J' => 'j'
  | 'K' => 'k' | 'L' => 'l' | 'M' => 'm' | 'N' => 'n' | 'O' => 'o'
  | 'P' => 'p' | 'Q' => 'q' | 'R' => 'r' | 'S' => 's' | 'T' => 't'
  | 'U' => 'u' | 'V' => 'v' | 'W' => 'w' | 'X' => 'x' | 'Y' => 'y'
  | 'Z' => 'z'
  | c => c

/-- Python `s.lower()`. -/
def pyLower (s : String) : String := String.mk (s.data.map lowerChar)

/-- Python `url.split(chr(35))[0]`: the prefix of the string before the
first hash character, the whole string when there is none. -/
def splitHash : List Char → List Char
  | [] => []
  | c :: cs => if c = '#' then [] else c :: splitHash cs

/-- Python `url.rstrip(chr(47))`: drop every trailing slash. -/
def rstripSlash (l : List Char) : List Char :=
  (l.reverse.dropWhile (fun c => c = '/')).reverse

/-- Python `s.replace(old, new)` for a non-empty `old`, written with an
explicit fuel argument so that the recursion is structural: each step
consumes one unit of fuel and at least one character, so fueling the
search with the length of the string computes exactly the leftmost,
non-overlapping replacement CPython performs. -/
def replaceFuel (pat repl : List Char) : Nat → List Char → List Char
  | 0, l => l
  | _ + 1, [] => []
  | n + 1, c :: cs =>
    if pat.isPrefixOf (c :: cs) then
      repl ++ replaceFuel pat repl n ((c :: cs).drop pat.length)
    else
      c :: replaceFuel pat repl n cs

/-- Python `s.replace(old, new)` (used in the source only with non-empty
`old`). -/
def pyReplace (pat repl l : List Char) : List Char :=
  replaceFuel pat repl l.length l

/-- Occurrence test: does `pat` occur as a contiguous substring of the
list?  Used to state when `pyReplace` is the identity. -/
def hasSub (pat : List Char) : List Char → Bool
  | [] => pat.isPrefixOf ([] : List Char)
  | c :: cs => pat.isPrefixOf (c :: cs) || hasSub pat cs

def wwwPat : List Char := ['w', 'w', 'w', '.']

def port80Pat : List Char := [':', '8', '0', '/']

def port443Pat : List Char := [':', '4', '4', '3', '/']

def httpPat : List Char := ['h', 't', 't', 'p', ':', '/', '/']

def httpsPat : List Char := ['h', 't', 't', 'p', 's', ':', '/', '/']

def slashRepl : List Char := ['/']

/-- Source `app/api.py` lines 48-49: `if url.startswith` of the http scheme,
replace the first seven characters by the https scheme. -/
def forceHttps (l : List Char) : List Char :=
  if httpPat.isPrefixOf l then httpsPat ++ l.drop 7 else l

/-- Source `app/api.py` lines 37-50, `normalize_url`: drop a fragment, strip
trailing slashes, delete every occurrence of `www.`, rewrite `:80/` and
`:443/` to `/`, turn an `http://` scheme into `https://`, then
lower-case the result. -/
def normalize_url (url : String) : String :=
  let u1 := splitHash url.data
  let u2 := rstripSlash u1
  let u3 := pyReplace wwwPat [] u2
  let u4 := pyReplace port80Pat slashRepl u3
  let u5 := pyReplace port443Pat slashRepl u4
  String.mk ((forceHttps u5).map lowerChar)

/-- Source `app/api.py` lines 22-34, the `media_extensions` set, in source
order. -/
def media_extensions : List String :=
  [".jpg", ".jpeg", ".png", ".gif", ".bmp", ".webp", ".svg", ".ico", ".tiff",
   ".mp3", ".wav", ".ogg", ".m4a", ".aac",
   ".mp4", ".webm", ".avi", ".mov", ".wmv", ".flv",
   ".pdf", ".doc", ".docx", ".xls", ".xlsx", ".ppt", ".pptx",
   ".zip", ".rar", ".7z", ".tar", ".gz",
   ".swf", ".woff", ".woff2", ".ttf", ".eot"]

/-- Source `app/api.py` lines 52-55, `is_media_url`: lower-case the URL and test
whether any media extension is a suffix of the whole lowered string. -/
def is_media_url (url : String) : Bool :=
  media_extensions.any (fun ext => ext.data.isSuffixOf (pyLower url).data)

/-- Source `app/api.py` lines 57-59, `is_same_url`: equality after
normalization. -/
def is_same_url (url1 url2 : String) : Bool :=
  normalize_url url1 == normalize_url url2

/-!
Orchestrator data model (`app/api.py` lines 131-142 and 254-363).

The external page engine (`crawl4ai.AsyncWebCrawler.arun`) is modelled by
its observable behaviour per call: the one discovery call made with
`crawler_cfg` is a `DiscoveryResult`, and every call made with
`md_config` (the pre-warm and the per-page fetch-and-transform calls) is
a function from the URL to a `FetchOutcome` — it may raise, return an
unsuccessful result, or return markdown content.  The orchestrator is a
single-shot coroutine; `asyncio.gather` collects the task results
positionally, so the fan-out denotes a positional map over the worklist
(the bounded interleaving itself is modelled separately, see
`fanoutStep`).  `CrawlRun.mdFetchCalls` records which URLs were passed to
`crawler.arun` with `md_config`, pre-warm first.
-/

/-- Source `app/api.py` lines 131-136, the `PageMarkdown` response model. -/
structure PageMarkdown where
  url : String
  raw_markdown : Option String
  fit_markdown : Option String
  raw_markdown_length : Option Nat
  fit_markdown_length : Option Nat
deriving DecidableEq, Repr

/-- Source `app/api.py` lines 138-142, the `AdvancedResponse` model
(`pages` defaults to the empty list, `error_message` to `None`). -/
structure AdvancedResponse where
  success : Bool
  url : String
  pages : List PageMarkdown
  error_message : Option String
deriving DecidableEq, Repr

/-- The markdown payload of one successful engine call
(`result.markdown_v2`). -/
structure MarkdownContent where
  raw_markdown : String
  fit_markdown : String
deriving DecidableEq, Repr

/-- Observable behaviour of one `crawler.arun(url, config=md_config)`
call: the coroutine raises, or returns a result with `success == False`,
or returns markdown content. -/
inductive FetchOutcome where
  | raises (msg : String)
  | fails (errorMessage : String)
  | succeeds (content : MarkdownContent)
deriving DecidableEq, Repr

/-- Whether a fetch outcome is a raised exception. -/
def isRaise : FetchOutcome → Bool
  | FetchOutcome.raises _ => true
  | _ => false

/-- Result of the initial `crawler.arun(input_url, config=crawler_cfg)`
discovery call: its `success` flag, the `href` values of
`result.links.get(chr(34) ++ internal ++ chr(34), [])`, and its
`error_message`. -/
structure DiscoveryResult where
  success : Bool
  internalLinks : List String
  error_message : String
deriving DecidableEq, Repr

/-- Python set insertion (`set.add` semantics): membership-preserving,
appending an unseen element. -/
def pySetAdd (l : List String) (x : String) : List String :=
  if x ∈ l then l else l ++ [x]

/-- Python set construction from an iterable: deduplicate, keeping the
first occurrence.  CPython iterates a set in an unspecified order; this
deterministic order is one admissible iteration order, and no theorem
below depends on which order the set picks. -/
def pySetOfList (l : List String) : List String := l.foldl pySetAdd []

/-- Source `app/api.py` lines 308-313: the `internal_urls` set — normalized
forms of the discovered internal links that are neither media URLs nor
the input URL itself, plus the normalized input URL. -/
def buildWorklist (internalLinks : List String) (input_url : String) : List String :=
  pySetAdd
    (pySetOfList ((internalLinks.filter
      (fun href => !is_media_url href && !is_same_url href input_url)).map normalize_url))
    (normalize_url input_url)

/-- Source `app/api.py` lines 323-342, `process_url`: one fan-out task.  A
successful engine call yields a `PageMarkdown` carrying the URL the task
was invoked on; an unsuccessful result returns `None`; a raised
exception is caught by the `except` clause inside the task and also
returns `None`, so no exception escapes the task boundary. -/
def process_url (fetch : String → FetchOutcome) (url : String) : Option PageMarkdown :=
  match fetch url with
  | FetchOutcome.succeeds md =>
    some { url := url
           raw_markdown := some md.raw_markdown
           fit_markdown := some md.fit_markdown
           raw_markdown_length := some md.raw_markdown.length
           fit_markdown_length := some md.fit_markdown.length }
  | FetchOutcome.fails _ => none
  | FetchOutcome.raises _ => none

/-- Source `app/api.py` lines 302-306: the body of the early return taken when
the discovery call reports failure. -/
def failHead : String := "Failed to crawl initial URL: "

/-- Decidable equality for `Except`, needed to evaluate concrete crawl
outcomes. -/
instance exceptDecEq {ε α : Type} [DecidableEq ε] [DecidableEq α] : DecidableEq (Except ε α)
  | Except.error a, Except.error b =>
    if h : a = b then isTrue (by rw [h]) else isFalse (by intro he; cases he; exact h rfl)
  | Except.error _, Except.ok _ => isFalse (by intro h; cases h)
  | Except.ok _, Except.error _ => isFalse (by intro h; cases h)
  | Except.ok a, Except.ok b =>
    if h : a = b then isTrue (by rw [h]) else isFalse (by intro he; cases he; exact h rfl)

/-- One orchestrator invocation: the HTTP-level outcome (either an
`HTTPException` as a status-detail pair, or an `AdvancedResponse`), and
the trace of URLs passed to the engine with `md_config`. -/
structure CrawlRun where
  result : Except (Nat × String) AdvancedResponse
  mdFetchCalls : List String
deriving DecidableEq, Repr

/-- Source `app/api.py` lines 254-363, `advanced_crawl`: on discovery failure,
return a failed response without any `md_config` call; otherwise build
the worklist, pre-warm the engine on the input URL (a raised exception
here escapes to the outer handler, which re-raises it as
`HTTPException(500, str(e))`), then fan out `process_url` over the
worklist and keep the non-`None` results in worklist order
(`asyncio.gather` is positional). -/
def advanced_crawl (d : DiscoveryResult) (fetch : String → FetchOutcome)
    (input_url : String) : CrawlRun :=
  if d.success = false then
    { result := Except.ok
        { success := false
          url := input_url
          pages := []
          error_message := some (failHead ++ d.error_message) }
      mdFetchCalls := [] }
  else
    let worklist := buildWorklist d.internalLinks input_url
    match fetch input_url with
    | FetchOutcome.raises msg =>
      { result := Except.error (500, msg), mdFetchCalls := [input_url] }
    | _ =>
      { result := Except.ok
          { success := true
            url := input_url
            pages := worklist.filterMap (process_url fetch)
            error_message := none }
        mdFetchCalls := input_url :: worklist }

/-!
Credential validation (`app/auth.py` lines 75-112, `get_api_key`).

The Airtable directory lookup `table.all()` is modelled by its
observable behaviour: either it raises (directory unavailable) or it
returns the list of stored `API Key` field values.  The outcome of the
dependency is an `AuthOutcome`: a raised `fastapi.HTTPException`
(status and detail), a raised `TypeError`, or acceptance of the key.

Line 78 formats `api_key_header[:5]` in a debug print *before* the
`None` check on line 80; slicing `None` raises `TypeError`, which the
function does not catch (it is raised outside the `try` block), so the
framework converts it into an HTTP 500.  The `HTTPException` raised for
a non-matching key on lines 105-107 is raised *inside* the `try` block,
so the `except Exception` clause on line 108 catches it and re-raises it
wrapped; `str` of a starlette `HTTPException` renders as
`403: Invalid API key`.
-/

/-- Outcome of one `get_api_key` dependency call. -/
inductive AuthOutcome where
  | httpError (status : Nat) (detail : String)
  | typeError
  | accepted (key : String)
deriving DecidableEq, Repr

/-- Source `app/auth.py` line 82: the detail of the (unreachable) missing-key
rejection. -/
def noKeyDetail : String := "No API key provided"

/-- Rendering of the inner `HTTPException(403, detail)` raised on lines
105-107 once `str` is applied to it by the wrapper on line 111. -/
def invalidInnerStr : String := "403: Invalid API key"

/-- Source `app/auth.py` line 111: the prefix the `except` clause prepends to
the stringified exception. -/
def wrapHead : String := "Error validating API key: "

/-- Source `app/auth.py` lines 75-112, `get_api_key`, as a function of the
behaviour of `table.all()` and of the presented header value. -/
def get_api_key (table_all : Except String (List String))
    (api_key_header : Option String) : AuthOutcome :=
  match api_key_header with
  | none => AuthOutcome.typeError
  | some key =>
    match table_all with
    | Except.error e => AuthOutcome.httpError 403 (wrapHead ++ e)
    | Except.ok keys =>
      if key ∈ keys then AuthOutcome.accepted key
      else AuthOutcome.httpError 403 (wrapHead ++ invalidInnerStr)

/-- Status code of an `AuthOutcome` that raised an `HTTPException`. -/
def statusOf : AuthOutcome → Option Nat
  | AuthOutcome.httpError s _ => some s
  | _ => none

/-!
Bounded fan-out (`app/api.py` lines 290-292 and 323-327).

`advanced_crawl` creates `asyncio.Semaphore(5)` and every `process_url`
task enters `async with semaphore` around its engine call.  The
cooperative scheduler may interleave the tasks arbitrarily; the model is
a transition system over the phases of the fan-out tasks.  A task is
`waiting` before it acquires the semaphore, `running` while it holds it
(its engine call is in flight), and `done` after the `async with` block
releases it.  An acquire transition fires only when the semaphore
counter `C - runningCount` is positive, exactly the admission rule of
`asyncio.Semaphore(C)`. -/

/-- Phase of one fan-out task with respect to the semaphore. -/
inductive TaskPhase where
  | waiting
  | running
  | done
deriving DecidableEq, Repr

/-- Contribution of one task to the number of in-flight engine calls. -/
def phaseWeight : TaskPhase → Nat
  | TaskPhase.running => 1
  | _ => 0

/-- Number of fetch-and-transform calls currently in flight. -/
def runningCount : List TaskPhase → Nat
  | [] => 0
  | t :: s => phaseWeight t + runningCount s

/-- One scheduler transition of the semaphore-guarded fan-out: a waiting
task acquires the semaphore (possible only while fewer than `C` tasks
are running), or a running task finishes its engine call and releases
the semaphore. -/
inductive fanoutStep (C : Nat) : List TaskPhase → List TaskPhase → Prop where
  | acquire (pre post : List TaskPhase)
      (h : runningCount (pre ++ TaskPhase.waiting :: post) < C) :
      fanoutStep C (pre ++ TaskPhase.waiting :: post) (pre ++ TaskPhase.running :: post)
  | release (pre post : List TaskPhase) :
      fanoutStep C (pre ++ TaskPhase.running :: post) (pre ++ TaskPhase.done :: post)

/-- States reachable by the fan-out: all tasks start waiting (one task
per worklist entry, any worklist size), then scheduler transitions
interleave freely. -/
inductive FanoutReachable (C : Nat) : List TaskPhase → Prop where
  | init (n : Nat) : FanoutReachable C (List.replicate n TaskPhase.waiting)
  | step {s t : List TaskPhase} :
      FanoutReachable C s → fanoutStep C s t → FanoutReachable C t

/-!
Helper lemmas about the string primitives.
-/

/-- Unfolding of the normalizer to its composed stages. -/
theorem normalize_url_data (u : String) :
    (normalize_url u).data =
      (forceHttps (pyReplace port443Pat slashRepl (pyReplace port80Pat slashRepl
        (pyReplace wwwPat [] (rstripSlash (splitHash u.data)))))).map lowerChar := rfl

/-- Rebuilding a string from its character list is the identity. -/
theorem string_mk_data (s : String) : String.mk s.data = s := by
  cases s
  rfl

/-- Characters of a concatenation. -/
theorem string_data_append (s t : String) : (s ++ t).data = s.data ++ t.data := by
  cases s
  cases t
  rfl

/-- The function `splitHash` never returns a hash character. -/
theorem not_mem_splitHash_hash : ∀ (l : List Char), '#' ∉ splitHash l := by
  intro l
  induction l with
  | nil => simp [splitHash]
  | cons c cs ih =>
    simp only [splitHash]
    split
    · simp
    · intro h
      rcases List.mem_cons.mp h with h1 | h2
      · exact absurd h1.symm (by assumption)
      · exact ih h2

/-- The function `splitHash` is the identity on hash-free strings. -/
theorem splitHash_eq_self : ∀ (l : List Char), '#' ∉ l → splitHash l = l := by
  intro l
  induction l with
  | nil => intro _; rfl
  | cons c cs ih =>
    intro h
    have hc : ¬(c = '#') := fun he => h (he ▸ List.mem_cons_self c cs)
    have hcs : '#' ∉ cs := fun hm => h (List.mem_cons_of_mem c hm)
    simp only [splitHash, if_neg hc]
    rw [ih hcs]

/-- Membership is preserved backwards through `rstripSlash`. -/
theorem mem_rstripSlash (l : List Char) (c : Char) (h : c ∈ rstripSlash l) : c ∈ l := by
  unfold rstripSlash at h
  rw [List.mem_reverse] at h
  have hs : c ∈ l.reverse := (List.dropWhile_sublist _).subset h
  rwa [List.mem_reverse] at hs

/-- The function `rstripSlash` is the identity when the string does not end in a
slash. -/
theorem rstripSlash_eq_self (l : List Char) (h : l.getLast? ≠ some '/') :
    rstripSlash l = l := by
  unfold rstripSlash
  cases hr : l.reverse with
  | nil =>
    rw [List.dropWhile_nil, ← hr, List.reverse_reverse]
  | cons a as =>
    have ha : ¬(a = '/') := by
      intro he
      apply h
      rw [← List.head?_reverse, hr, he]
      rfl
    rw [List.dropWhile_cons, if_neg (by simpa using ha), ← hr, List.reverse_reverse]

/-- Fuelled replacement is the identity when the pattern does not occur. -/
theorem replaceFuel_eq_self (pat repl : List Char) :
    ∀ (n : Nat) (l : List Char), hasSub pat l = false → replaceFuel pat repl n l = l := by
  intro n
  induction n with
  | zero => intro l _; rfl
  | succ n ih =>
    intro l h
    cases l with
    | nil => rfl
    | cons c cs =>
      unfold hasSub at h
      rw [Bool.or_eq_false_iff] at h
      simp only [replaceFuel, h.1, Bool.false_eq_true, if_false]
      rw [ih cs h.2]

/-- The function `pyReplace` is the identity when the pattern does not occur. -/
theorem pyReplace_eq_self (pat repl l : List Char) (h : hasSub pat l = false) :
    pyReplace pat repl l = l :=
  replaceFuel_eq_self pat repl l.length l h

/-- Every character of a fuelled replacement comes from the input or
from the replacement string. -/
theorem mem_replaceFuel (pat repl : List Char) :
    ∀ (n : Nat) (l : List Char) (c : Char),
      c ∈ replaceFuel pat repl n l → c ∈ l ∨ c ∈ repl := by
  intro n
  induction n with
  | zero => intro l c h; exact Or.inl h
  | succ n ih =>
    intro l c h
    cases l with
    | nil => exact Or.inl h
    | cons d ds =>
      simp only [replaceFuel] at h
      by_cases hp : pat.isPrefixOf (d :: ds) = true
      · rw [if_pos hp] at h
        rcases List.mem_append.mp h with h1 | h2
        · exact Or.inr h1
        · rcases ih _ c h2 with h3 | h4
          · exact Or.inl (List.drop_subset _ _ h3)
          · exact Or.inr h4
      · rw [if_neg hp] at h
        rcases List.mem_cons.mp h with h1 | h2
        · exact Or.inl (h1 ▸ List.mem_cons_self d ds)
        · rcases ih _ c h2 with h3 | h4
          · exact Or.inl (List.mem_cons_of_mem d h3)
          · exact Or.inr h4

/-- Characters absent from the input and the replacement are absent from
a `pyReplace` result. -/
theorem not_mem_pyReplace (pat repl l : List Char) (c : Char)
    (hl : c ∉ l) (hr : c ∉ repl) : c ∉ pyReplace pat repl l :=
  fun h => ((mem_replaceFuel pat repl l.length l c h).elim hl hr)

/-- Characters absent from the input and from the https scheme are
absent from a `forceHttps` result. -/
theorem not_mem_forceHttps (l : List Char) (c : Char)
    (hl : c ∉ l) (hh : c ∉ httpsPat) : c ∉ forceHttps l := by
  unfold forceHttps
  split
  · intro h
    rcases List.mem_append.mp h with h1 | h2
    · exact hh h1
    · exact hl (List.drop_subset _ _ h2)
  · exact hl

/-- The function `forceHttps` is the identity on strings without the http scheme. -/
theorem forceHttps_eq_self (l : List Char) (h : httpPat.isPrefixOf l = false) :
    forceHttps l = l := by
  unfold forceHttps
  rw [h]
  simp

/-- The characters `lowerChar` rewrites. -/
def upperList : List Char :=
  ['A', 'B', 'C', 'D', 'E', 'F', 'G', 'H', 'I', 'J', 'K', 'L', 'M',
   'N', 'O', 'P', 'Q', 'R', 'S', 'T', 'U', 'V', 'W', 'X', 'Y', 'Z']

/-- Lower-casing fixes every character that is not an uppercase
letter. -/
theorem lowerChar_eq_self_of (c : Char) (h : c ∉ upperList) : lowerChar c = c := by
  unfold lowerChar
  split
  all_goals simp_all [upperList]

/-- Lower-casing never produces an uppercase letter. -/
theorem lowerChar_not_upper (c : Char) : lowerChar c ∉ upperList := by
  unfold lowerChar
  split
  all_goals first | decide | simp_all [upperList]

/-- ASCII lower-casing is idempotent on one character. -/
theorem lowerChar_idem (c : Char) : lowerChar (lowerChar c) = lowerChar c :=
  lowerChar_eq_self_of (lowerChar c) (lowerChar_not_upper c)

/-- A hash character can only come from a hash character. -/
theorem eq_hash_of_lowerChar (c : Char) (h : lowerChar c = '#') : c = '#' := by
  unfold lowerChar at h
  split at h
  all_goals first | (exact absurd h (by decide)) | (exact h)

/-- ASCII lower-casing cannot produce a hash character from a non-hash
character. -/
theorem lowerChar_ne_hash (c : Char) (h : c ≠ '#') : lowerChar c ≠ '#' :=
  fun he => h (eq_hash_of_lowerChar c he)

/-- ASCII lower-casing of a list is idempotent. -/
theorem map_lowerChar_idem (l : List Char) :
    (l.map lowerChar).map lowerChar = l.map lowerChar := by
  induction l with
  | nil => rfl
  | cons c cs ih => simp [List.map_cons, lowerChar_idem, ih]

/-- The output of the normalizer never contains a hash character: the
fragment is dropped first and no later stage can introduce one. -/
theorem normalize_url_hash_free (u : String) : '#' ∉ (normalize_url u).data := by
  have h1 : '#' ∉ splitHash u.data := not_mem_splitHash_hash u.data
  have h2 : '#' ∉ rstripSlash (splitHash u.data) := fun h => h1 (mem_rstripSlash _ _ h)
  have h3 : '#' ∉ pyReplace wwwPat [] (rstripSlash (splitHash u.data)) :=
    not_mem_pyReplace _ _ _ _ h2 (by decide)
  have h4 : '#' ∉ pyReplace port80Pat slashRepl (pyReplace wwwPat []
      (rstripSlash (splitHash u.data))) :=
    not_mem_pyReplace _ _ _ _ h3 (by decide)
  have h5 : '#' ∉ pyReplace port443Pat slashRepl (pyReplace port80Pat slashRepl
      (pyReplace wwwPat [] (rstripSlash (splitHash u.data)))) :=
    not_mem_pyReplace _ _ _ _ h4 (by decide)
  have h6 : '#' ∉ forceHttps (pyReplace port443Pat slashRepl (pyReplace port80Pat slashRepl
      (pyReplace wwwPat [] (rstripSlash (splitHash u.data))))) :=
    not_mem_forceHttps _ _ h5 (by decide)
  rw [normalize_url_data]
  intro hc
  rcases List.mem_map.mp hc with ⟨c0, hc0, heq⟩
  by_cases hc0h : c0 = '#'
  · exact h6 (hc0h ▸ hc0)
  · exact lowerChar_ne_hash c0 hc0h heq

/-- A string on which every stage of the normalizer acts as the identity
is a fixpoint of the normalizer. -/
theorem normalize_fixpoint_of (y : String)
    (hHash : '#' ∉ y.data)
    (hSlash : y.data.getLast? ≠ some '/')
    (hWWW : hasSub wwwPat y.data = false)
    (h80 : hasSub port80Pat y.data = false)
    (h443 : hasSub port443Pat y.data = false)
    (hHttp : httpPat.isPrefixOf y.data = false)
    (hLower : y.data.map lowerChar = y.data) :
    normalize_url y = y := by
  have e1 : splitHash y.data = y.data := splitHash_eq_self y.data hHash
  have hnorm : (normalize_url y).data = y.data := by
    rw [normalize_url_data, e1, rstripSlash_eq_self _ hSlash,
      pyReplace_eq_self _ _ _ hWWW, pyReplace_eq_self _ _ _ h80,
      pyReplace_eq_self _ _ _ h443, forceHttps_eq_self _ hHttp, hLower]
  calc normalize_url y = String.mk (normalize_url y).data := (string_mk_data _).symm
    _ = String.mk y.data := by rw [hnorm]
    _ = y := string_mk_data y


/-!
Helper lemmas about the orchestrator.
-/

/-- On a successful discovery and a non-raising pre-warm call, one
invocation of the orchestrator runs the whole pipeline: success flag
set, pages the positional filtered map of `process_url` over the
worklist, and one `md_config` engine call for the pre-warm plus one per
worklist entry. -/
theorem advanced_crawl_run (d : DiscoveryResult) (f : String → FetchOutcome) (u : String)
    (hd : d.success = true) (hp : isRaise (f u) = false) :
    advanced_crawl d f u =
      { result := Except.ok
          { success := true
            url := u
            pages := (buildWorklist d.internalLinks u).filterMap (process_url f)
            error_message := none }
        mdFetchCalls := u :: buildWorklist d.internalLinks u } := by
  unfold advanced_crawl
  rw [hd]
  cases hf : f u with
  | raises m => rw [hf] at hp; simp [isRaise] at hp
  | fails m => simp
  | succeeds m => simp

/-- A successful task result carries the URL the task was invoked on. -/
theorem process_url_url_eq (f : String → FetchOutcome) (v : String) (p : PageMarkdown)
    (h : process_url f v = some p) : p.url = v := by
  unfold process_url at h
  cases hf : f v with
  | raises m => rw [hf] at h; cases h
  | fails m => rw [hf] at h; cases h
  | succeeds m =>
    rw [hf] at h
    injection h with h
    rw [← h]

/-- The URLs of the aggregated pages are the worklist entries whose task
succeeded, in worklist order. -/
theorem map_url_filterMap (f : String → FetchOutcome) (wl : List String) :
    (wl.filterMap (process_url f)).map PageMarkdown.url =
      wl.filter (fun v => (process_url f v).isSome) := by
  induction wl with
  | nil => rfl
  | cons v vs ih =>
    cases hv : process_url f v with
    | none => simp [List.filterMap_cons, List.filter_cons, hv, ih]
    | some p =>
      have hu := process_url_url_eq f v p hv
      simp [List.filterMap_cons, List.filter_cons, hv, ih, hu]

/-- Every worklist entry is accounted for: kept pages plus dropped
entries add up to the worklist length. -/
theorem filterMap_length_add (f : String → FetchOutcome) (wl : List String) :
    (wl.filterMap (process_url f)).length +
      (wl.filter (fun v => (process_url f v).isNone)).length = wl.length := by
  induction wl with
  | nil => rfl
  | cons v vs ih =>
    cases hv : process_url f v with
    | none =>
      simp only [List.filterMap_cons, List.filter_cons, hv, Option.isNone_none, if_true]
      simp only [List.length_cons]
      omega
    | some p =>
      simp only [List.filterMap_cons, List.filter_cons, hv, Option.isNone_some,
        Bool.false_eq_true, if_false, List.length_cons]
      omega

/-- Each aggregated page was produced for a worklist entry. -/
theorem pages_url_mem (f : String → FetchOutcome) (wl : List String) (p : PageMarkdown)
    (hp : p ∈ wl.filterMap (process_url f)) : p.url ∈ wl := by
  rcases List.mem_filterMap.mp hp with ⟨v, hv, he⟩
  rw [process_url_url_eq f v p he]
  exact hv

/-- Membership in a Python set after one insertion. -/
theorem mem_pySetAdd (l : List String) (x y : String) :
    y ∈ pySetAdd l x ↔ y ∈ l ∨ y = x := by
  unfold pySetAdd
  split
  · exact ⟨Or.inl, fun h => h.elim id (fun he => he ▸ (by assumption))⟩
  · simp [List.mem_append]

/-- Membership after folding insertions over a list. -/
theorem mem_foldl_pySetAdd (l : List String) : ∀ (acc : List String) (y : String),
    y ∈ l.foldl pySetAdd acc ↔ y ∈ acc ∨ y ∈ l := by
  induction l with
  | nil => simp
  | cons x xs ih =>
    intro acc y
    rw [List.foldl_cons, ih, mem_pySetAdd]
    simp [List.mem_cons]
    tauto

/-- The set built from an iterable has exactly the iterable's
elements. -/
theorem mem_pySetOfList (l : List String) (y : String) :
    y ∈ pySetOfList l ↔ y ∈ l := by
  unfold pySetOfList
  rw [mem_foldl_pySetAdd]
  simp

/-- Every worklist entry is the normalized form of a discovered link or
of the input URL: no raw (non-normalized) URL is scheduled. -/
theorem buildWorklist_normalized (links : List String) (u y : String)
    (hy : y ∈ buildWorklist links u) :
    (∃ w, w ∈ links ∧ y = normalize_url w) ∨ y = normalize_url u := by
  unfold buildWorklist at hy
  rw [mem_pySetAdd, mem_pySetOfList] at hy
  rcases hy with hy | hy
  · rcases List.mem_map.mp hy with ⟨w, hw, he⟩
    exact Or.inl ⟨w, (List.mem_filter.mp hw).1, he.symm⟩
  · exact Or.inr hy

/-!
Claim theorems.
-/

/-- C2: when the initial link-discovery call fails, the orchestrator
returns a CrawlReport with `success = false`, empty `pages`, an error
message that contains the engine error message as a suffix, and performs
zero `md_config` engine calls — no pre-warm and no per-page fetches. -/
theorem fatal_discovery_failure (d : DiscoveryResult) (f : String → FetchOutcome)
    (u : String) (hd : d.success = false) :
    (advanced_crawl d f u).result = Except.ok
      { success := false
        url := u
        pages := []
        error_message := some (failHead ++ d.error_message) } ∧
    (advanced_crawl d f u).mdFetchCalls = [] ∧
    List.IsSuffix d.error_message.data (failHead ++ d.error_message).data := by
  refine ⟨?_, ?_, ?_⟩
  · simp [advanced_crawl, hd]
  · simp [advanced_crawl, hd]
  · exact ⟨failHead.data, (string_data_append failHead d.error_message).symm⟩

def c2Discovery : DiscoveryResult :=
  { success := false
    internalLinks := []
    error_message := "engine exploded" }

def c2Fetch : String → FetchOutcome :=
  fun _ => FetchOutcome.succeeds { raw_markdown := "r", fit_markdown := "f" }

/-- Witness for C2 at a concrete failed discovery. -/
theorem fatal_discovery_failure_witness :
    c2Discovery.success = false ∧
    (advanced_crawl c2Discovery c2Fetch ("https://seed.example")).result = Except.ok
      { success := false
        url := ("https://seed.example")
        pages := []
        error_message := some (failHead ++ ("engine exploded")) } ∧
    (advanced_crawl c2Discovery c2Fetch ("https://seed.example")).mdFetchCalls = [] := by
  obtain ⟨h1, h2, _⟩ := fatal_discovery_failure c2Discovery c2Fetch ("https://seed.example") rfl
  exact ⟨rfl, h1, h2⟩

/-- C10 (implicit): after a successful discovery, if the pre-warming
engine call on the seed URL raises, the whole request aborts with an
HTTP 500 carrying the exception message, no `AdvancedResponse` is
produced, and the only `md_config` call made is the pre-warm itself:
unlike per-page failures inside the fan-out, a pre-warm exception is not
recovered locally. -/
theorem prewarm_failure_fatal (d : DiscoveryResult) (f : String → FetchOutcome)
    (u msg : String) (hd : d.success = true) (hr : f u = FetchOutcome.raises msg) :
    (advanced_crawl d f u).result = Except.error (500, msg) ∧
    (advanced_crawl d f u).mdFetchCalls = [u] ∧
    ∀ resp, (advanced_crawl d f u).result ≠ Except.ok resp := by
  have he : advanced_crawl d f u =
      { result := Except.error (500, msg), mdFetchCalls := [u] } := by
    unfold advanced_crawl
    rw [hd, hr]
    simp
  rw [he]
  exact ⟨rfl, rfl, fun resp h => by cases h⟩

def c10Discovery : DiscoveryResult :=
  { success := true
    internalLinks := [("https://w.example/a")]
    error_message := "" }

def c10Fetch : String → FetchOutcome :=
  fun _ => FetchOutcome.raises ("browser session died")

/-- Witness for C10 at a concrete raising pre-warm. -/
theorem prewarm_failure_fatal_witness :
    c10Discovery.success = true ∧
    c10Fetch ("https://w.example") = FetchOutcome.raises ("browser session died") ∧
    (advanced_crawl c10Discovery c10Fetch ("https://w.example")).result =
      Except.error (500, ("browser session died")) ∧
    (advanced_crawl c10Discovery c10Fetch ("https://w.example")).mdFetchCalls =
      [("https://w.example")] := by
  obtain ⟨h1, h2, _⟩ :=
    prewarm_failure_fatal c10Discovery c10Fetch ("https://w.example")
      ("browser session died") rfl rfl
  exact ⟨rfl, rfl, h1, h2⟩

/-- C1: when discovery succeeds and the crawl reaches the fan-out (the
pre-warm call does not raise), every worklist entry whose engine call
fails or raises is dropped from `pages` with the exception absorbed
inside its task, every entry is still processed (one engine call per
entry), the kept and dropped entries add up to the whole worklist, and
the returned report has `success = true`. -/
theorem partial_failure_tolerance (d : DiscoveryResult) (f : String → FetchOutcome)
    (u : String) (hd : d.success = true) (hp : isRaise (f u) = false) :
    ∃ resp, (advanced_crawl d f u).result = Except.ok resp ∧
      resp.success = true ∧
      resp.pages = (buildWorklist d.internalLinks u).filterMap (process_url f) ∧
      resp.pages.length +
        ((buildWorklist d.internalLinks u).filter
          (fun v => (process_url f v).isNone)).length =
        (buildWorklist d.internalLinks u).length ∧
      (advanced_crawl d f u).mdFetchCalls = u :: buildWorklist d.internalLinks u := by
  rw [advanced_crawl_run d f u hd hp]
  exact ⟨_, rfl, rfl, rfl, filterMap_length_add f _, rfl⟩

def c1Discovery : DiscoveryResult :=
  { success := true
    internalLinks :=
      [("https://e.example/p1"), ("https://e.example/p2"), ("https://e.example/p3"),
       ("https://e.example/p4"), ("https://e.example/p5"), ("https://e.example/p6"),
       ("https://e.example/p7"), ("https://e.example/p8"), ("https://e.example/p9"),
       ("https://e.example/pa"), ("https://e.example/pb")]
    error_message := "" }

def c1Fetch : String → FetchOutcome :=
  fun v =>
    if v = ("https://e.example/p2") then FetchOutcome.fails ("http 404")
    else if v = ("https://e.example/p5") then FetchOutcome.raises ("timeout")
    else FetchOutcome.succeeds { raw_markdown := "r", fit_markdown := "f" }

/-- Witness for C1: 12 worklist entries of which one fails and one
raises; the report succeeds and `pages` has exactly 10 entries. -/
theorem partial_failure_tolerance_witness :
    c1Discovery.success = true ∧
    isRaise (c1Fetch ("https://e.example")) = false ∧
    (buildWorklist c1Discovery.internalLinks ("https://e.example")).length = 12 ∧
    ∃ resp, (advanced_crawl c1Discovery c1Fetch ("https://e.example")).result =
        Except.ok resp ∧
      resp.success = true ∧ resp.pages.length = 10 := by
  refine ⟨rfl, by decide, by decide, ?_⟩
  obtain ⟨resp, h1, h2, h3, -, -⟩ :=
    partial_failure_tolerance c1Discovery c1Fetch ("https://e.example") rfl (by decide)
  refine ⟨resp, h1, h2, ?_⟩
  rw [h3]
  decide

/-- C4: when the crawl reaches the fan-out, the URLs of the `pages`
sequence are exactly the worklist entries whose task succeeded, in the
worklist iteration order (results are collected positionally by
`asyncio.gather`, failures removed); in particular the page URLs form a
sublist of the worklist. -/
theorem order_preservation (d : DiscoveryResult) (f : String → FetchOutcome)
    (u : String) (hd : d.success = true) (hp : isRaise (f u) = false) :
    ∃ resp, (advanced_crawl d f u).result = Except.ok resp ∧
      resp.pages.map PageMarkdown.url =
        (buildWorklist d.internalLinks u).filter
          (fun v => (process_url f v).isSome) ∧
      List.Sublist (resp.pages.map PageMarkdown.url)
        (buildWorklist d.internalLinks u) := by
  rw [advanced_crawl_run d f u hd hp]
  refine ⟨_, rfl, map_url_filterMap f _, ?_⟩
  rw [map_url_filterMap f _]
  exact List.filter_sublist _

def c4Discovery : DiscoveryResult :=
  { success := true
    internalLinks := [("https://o.example/b"), ("https://o.example/a")]
    error_message := "" }

def c4Fetch : String → FetchOutcome :=
  fun v =>
    if v = ("https://o.example/b") then FetchOutcome.fails ("http 500")
    else FetchOutcome.succeeds { raw_markdown := "r", fit_markdown := "f" }

/-- Witness for C4: with worklist order b, a, seed and a failure on b,
the page URLs come out as a, seed — the worklist order with the failed
entry removed. -/
theorem order_preservation_witness :
    c4Discovery.success = true ∧
    isRaise (c4Fetch ("https://o.example")) = false ∧
    buildWorklist c4Discovery.internalLinks ("https://o.example") =
      [("https://o.example/b"), ("https://o.example/a"), ("https://o.example")] ∧
    ∃ resp, (advanced_crawl c4Discovery c4Fetch ("https://o.example")).result =
        Except.ok resp ∧
      resp.pages.map PageMarkdown.url =
        [("https://o.example/a"), ("https://o.example")] := by
  refine ⟨rfl, by decide, by decide, ?_⟩
  obtain ⟨resp, h1, h2, -⟩ :=
    order_preservation c4Discovery c4Fetch ("https://o.example") rfl (by decide)
  refine ⟨resp, h1, ?_⟩
  rw [h2]
  decide

def c7Discovery : DiscoveryResult :=
  { success := true
    internalLinks := [("https://Example.com/A/")]
    error_message := "" }

def c7Fetch : String → FetchOutcome :=
  fun _ => FetchOutcome.succeeds { raw_markdown := "r", fit_markdown := "f" }

/-- C7 counterexample: the worklist keeps only normalized keys, not raw
representative URLs.  The surviving candidate `https://Example.com/A/`
is nowhere in the worklist; the fan-out engine calls and the page URL in
the response use the normalized key `https://example.com/a` instead of
the raw discovered URL. -/
theorem worklist_raw_url_counterexample :
    buildWorklist c7Discovery.internalLinks ("https://example.com") =
      [("https://example.com/a"), ("https://example.com")] ∧
    ("https://Example.com/A/") ∉
      buildWorklist c7Discovery.internalLinks ("https://example.com") ∧
    (advanced_crawl c7Discovery c7Fetch ("https://example.com")).mdFetchCalls =
      [("https://example.com"), ("https://example.com/a"), ("https://example.com")] ∧
    ("https://Example.com/A/") ∉
      (advanced_crawl c7Discovery c7Fetch ("https://example.com")).mdFetchCalls ∧
    ∃ resp, (advanced_crawl c7Discovery c7Fetch ("https://example.com")).result =
        Except.ok resp ∧
      resp.pages.map PageMarkdown.url =
        [("https://example.com/a"), ("https://example.com")] := by
  refine ⟨by decide, by decide, by decide, by decide, ?_⟩
  exact ⟨_, rfl, by decide⟩

/-- C7 amended: the worklist builder inserts `normalize(candidate)` into
a set (keeping no raw representative), each fan-out engine call is made
on a normalized key, and each returned PageOutcome's `url` is that
normalized key. -/
theorem worklist_normalized_amended (d : DiscoveryResult) (f : String → FetchOutcome)
    (u : String) (hd : d.success = true) (hp : isRaise (f u) = false) :
    (∀ v ∈ buildWorklist d.internalLinks u,
      (∃ w, w ∈ d.internalLinks ∧ v = normalize_url w) ∨ v = normalize_url u) ∧
    (advanced_crawl d f u).mdFetchCalls = u :: buildWorklist d.internalLinks u ∧
    ∃ resp, (advanced_crawl d f u).result = Except.ok resp ∧
      ∀ p ∈ resp.pages, p.url ∈ buildWorklist d.internalLinks u := by
  refine ⟨fun v hv => buildWorklist_normalized _ _ _ hv, ?_, ?_⟩
  · rw [advanced_crawl_run d f u hd hp]
  · rw [advanced_crawl_run d f u hd hp]
    exact ⟨_, rfl, fun p hp2 => pages_url_mem f _ p hp2⟩

/-- Witness for the amended C7 at the concrete discovery of
`https://Example.com/A/`. -/
theorem worklist_normalized_amended_witness :
    c7Discovery.success = true ∧
    isRaise (c7Fetch ("https://example.com")) = false ∧
    (∀ v ∈ buildWorklist c7Discovery.internalLinks ("https://example.com"),
      (∃ w, w ∈ c7Discovery.internalLinks ∧ v = normalize_url w) ∨
        v = normalize_url ("https://example.com")) ∧
    (advanced_crawl c7Discovery c7Fetch ("https://example.com")).mdFetchCalls =
      ("https://example.com") :: buildWorklist c7Discovery.internalLinks ("https://example.com") := by
  obtain ⟨h1, h2, -⟩ :=
    worklist_normalized_amended c7Discovery c7Fetch ("https://example.com") rfl (by decide)
  exact ⟨rfl, by decide, h1, h2⟩

/-!
Bounded-concurrency lemmas and claim.
-/

/-- The function `runningCount` distributes over concatenation. -/
theorem runningCount_append (a b : List TaskPhase) :
    runningCount (a ++ b) = runningCount a + runningCount b := by
  induction a with
  | nil => simp [runningCount]
  | cons t s ih =>
    show phaseWeight t + runningCount (s ++ b) =
      phaseWeight t + runningCount s + runningCount b
    rw [ih]
    omega

/-- Before any task starts, nothing is running. -/
theorem runningCount_replicate_waiting (n : Nat) :
    runningCount (List.replicate n TaskPhase.waiting) = 0 := by
  induction n with
  | zero => rfl
  | succ n ih => simp [List.replicate_succ, runningCount, phaseWeight, ih]

/-- C3: with the fan-out guarded by `asyncio.Semaphore(5)`, in every
reachable scheduler state at most 5 fetch-and-transform calls are in
flight; an acquire transition (the start of a further operation) is only
enabled while fewer than 5 are running, so the 6th operation cannot
start until one of the first 5 has completed. -/
theorem bounded_concurrency (s : List TaskPhase) (h : FanoutReachable 5 s) :
    runningCount s ≤ 5 := by
  induction h with
  | init n => rw [runningCount_replicate_waiting]; omega
  | step hr hstep ih =>
    cases hstep with
    | acquire pre post hlt =>
      have e1 : runningCount (pre ++ TaskPhase.waiting :: post) =
          runningCount pre + runningCount post := by
        rw [runningCount_append]
        simp [runningCount, phaseWeight]
      have e2 : runningCount (pre ++ TaskPhase.running :: post) =
          runningCount pre + runningCount post + 1 := by
        rw [runningCount_append]
        simp [runningCount, phaseWeight]
        omega
      rw [e1] at hlt
      rw [e2]
      omega
    | release pre post =>
      have e1 : runningCount (pre ++ TaskPhase.running :: post) =
          runningCount pre + runningCount post + 1 := by
        rw [runningCount_append]
        simp [runningCount, phaseWeight]
        omega
      have e2 : runningCount (pre ++ TaskPhase.done :: post) =
          runningCount pre + runningCount post := by
        rw [runningCount_append]
        simp [runningCount, phaseWeight]
      rw [e1] at ih
      rw [e2]
      omega

/-- Witness for C3: a reachable state of a 12-task fan-out (one task has
acquired the semaphore, eleven wait) satisfies the bound. -/
theorem bounded_concurrency_witness :
    runningCount (TaskPhase.running :: List.replicate 11 TaskPhase.waiting) ≤ 5 :=
  bounded_concurrency _
    (FanoutReachable.step (FanoutReachable.init 12)
      (fanoutStep.acquire [] (List.replicate 11 TaskPhase.waiting) (by decide)))

/-- C5 counterexample: normalization is not idempotent.  The scheme
check `startswith` of `http://` happens before lower-casing, so the
first pass turns `HTTP://example.com` into `http://example.com` and only
the second pass rewrites the scheme to `https://`. -/
theorem normalize_idempotence_counterexample :
    normalize_url (normalize_url ("HTTP://example.com")) ≠
      normalize_url ("HTTP://example.com") := by decide

/-- C5 amended: normalization is idempotent exactly on those URLs whose
normalized form contains none of the patterns the function rewrites —
no `www.` occurrence (counterexample otherwise: `https://WWW.example.com`),
no `:80/` or `:443/` occurrence, no leading `http://` (counterexample:
`HTTP://example.com`), and no trailing slash (counterexample:
`http://h.example/www.`, whose normalization ends in a slash).  The
remaining stages are invariably idempotent: the normalized form never
contains a fragment and is already lower-case. -/
theorem normalize_idempotence_amended (u : String)
    (hWWW : hasSub wwwPat (normalize_url u).data = false)
    (h80 : hasSub port80Pat (normalize_url u).data = false)
    (h443 : hasSub port443Pat (normalize_url u).data = false)
    (hHttp : httpPat.isPrefixOf (normalize_url u).data = false)
    (hSlash : (normalize_url u).data.getLast? ≠ some '/') :
    normalize_url (normalize_url u) = normalize_url u := by
  apply normalize_fixpoint_of
  · exact normalize_url_hash_free u
  · exact hSlash
  · exact hWWW
  · exact h80
  · exact h443
  · exact hHttp
  · rw [normalize_url_data]
    exact map_lowerChar_idem _

/-- Witness for the amended C5: an already-canonical URL is a fixpoint. -/
theorem normalize_idempotence_amended_witness :
    hasSub wwwPat (normalize_url ("https://example.com/page")).data = false ∧
    hasSub port80Pat (normalize_url ("https://example.com/page")).data = false ∧
    hasSub port443Pat (normalize_url ("https://example.com/page")).data = false ∧
    httpPat.isPrefixOf (normalize_url ("https://example.com/page")).data = false ∧
    (normalize_url ("https://example.com/page")).data.getLast? ≠ some '/' ∧
    normalize_url (normalize_url ("https://example.com/page")) =
      normalize_url ("https://example.com/page") := by
  refine ⟨by decide, by decide, by decide, by decide, by decide, ?_⟩
  exact normalize_idempotence_amended ("https://example.com/page")
    (by decide) (by decide) (by decide) (by decide) (by decide)

/-- C6 counterexample: the media predicate is a suffix match on the
whole URL string, not on the path extension.  A `.jpg` path followed by
a query string is not classified as media, and a URL with no media path
extension whose query string ends in `.jpg` is classified as media. -/
theorem media_query_counterexample :
    is_media_url ("https://example.com/photo.jpg?size=2") = false ∧
    is_media_url ("https://example.com/page?file=.jpg") = true := by decide

/-- C6 amended: the media predicate is true iff the lower-cased URL
string, taken as a whole, ends with one of the fixed media extensions
(case-insensitively); trailing query strings or fragments therefore
defeat the match. -/
theorem media_suffix_amended (url : String) :
    is_media_url url = true ↔
      ∃ ext, ext ∈ media_extensions ∧
        ext.data.isSuffixOf (pyLower url).data = true := by
  unfold is_media_url
  rw [List.any_eq_true]

/-- Witness for the amended C6 at a concrete uppercase media URL. -/
theorem media_suffix_amended_witness :
    ∃ ext, ext ∈ media_extensions ∧
      ext.data.isSuffixOf (pyLower ("https://example.com/img.JPG")).data = true :=
  (media_suffix_amended ("https://example.com/img.JPG")).mp (by decide)

/-- C9 (code bug): a request with no X-API-Key header never reaches the
`None` check that would produce the 403 `No API key provided` rejection:
the debug print on line 78 of `app/auth.py` slices `None` first and
raises `TypeError`, whatever the credential directory would have
answered. -/
theorem missing_credential_type_error (table_all : Except String (List String)) :
    get_api_key table_all none = AuthOutcome.typeError ∧
    get_api_key table_all none ≠ AuthOutcome.httpError 403 noKeyDetail := by
  exact ⟨rfl, fun h => by cases h⟩

/-- C8 counterexample: a failing credential-directory lookup is rejected
with the same HTTP 403 status as a non-matching key — not with a
distinct service-unavailable condition. -/
theorem credential_directory_status_counterexample :
    statusOf (get_api_key (Except.error ("Airtable request timed out"))
      (some ("abc"))) = some 403 ∧
    statusOf (get_api_key (Except.ok [("stored-key")]) (some ("abc"))) = some 403 ∧
    get_api_key (Except.error ("Airtable request timed out")) (some ("abc")) ≠
      AuthOutcome.httpError 503 ("Service Unavailable") := by decide

/-- C8 amended: a failing directory lookup is rejected with HTTP 403
whose detail is the wrapper prefix followed by the lookup error, while a
non-matching key is rejected with HTTP 403 whose detail is the wrapper
prefix followed by the stringified inner 403; the two rejections carry
the same status and differ only in the detail text (whenever the lookup
error text differs from the stringified inner exception). -/
theorem credential_directory_amended (e key : String) (keys : List String)
    (hk : key ∉ keys) (hne : e ≠ invalidInnerStr) :
    get_api_key (Except.error e) (some key) =
      AuthOutcome.httpError 403 (wrapHead ++ e) ∧
    get_api_key (Except.ok keys) (some key) =
      AuthOutcome.httpError 403 (wrapHead ++ invalidInnerStr) ∧
    wrapHead ++ e ≠ wrapHead ++ invalidInnerStr := by
  refine ⟨rfl, ?_, ?_⟩
  · simp [get_api_key, hk]
  · intro hcontra
    apply hne
    have h2 := congrArg String.data hcontra
    rw [string_data_append, string_data_append] at h2
    have h3 := List.append_cancel_left h2
    calc e = String.mk e.data := (string_mk_data e).symm
      _ = String.mk invalidInnerStr.data := by rw [h3]
      _ = invalidInnerStr := string_mk_data invalidInnerStr

/-- Witness for the amended C8 at a concrete directory outage. -/
theorem credential_directory_amended_witness :
    ("abc") ∉ [("stored-key")] ∧
    ("Airtable request timed out") ≠ invalidInnerStr ∧
    get_api_key (Except.error ("Airtable request timed out")) (some ("abc")) =
      AuthOutcome.httpError 403 (wrapHead ++ ("Airtable request timed out")) ∧
    get_api_key (Except.ok [("stored-key")]) (some ("abc")) =
      AuthOutcome.httpError 403 (wrapHead ++ invalidInnerStr) := by
  obtain ⟨h1, h2, -⟩ :=
    credential_directory_amended ("Airtable request timed out") ("abc")
      [("stored-key")] (by decide) (by decide)
  exact ⟨by decide, by decide, h1, h2⟩
